/-
  Verification of the OnionController-ESP32 firmware core against its
  natural-language specification.

  Shallow embedding of the C sources in src/main:
    - onion_config.h : the onion_key_t channel record and compiled defaults
    - onion_touch.c  : sampling, classification, edge detection, NVS load/save
    - onion_ble.c    : HID report dispatch and the host-link command protocol
    - OnionController.c : the main scan loop (scheduler)

  Machine integers are modelled as Nat with explicit reductions where the C
  code converts (uint8_t, uint16_t, uint32_t casts).  The ADC is modelled as
  a stream (List Nat) of raw readings; each call to adc1_get_raw pops one
  reading, reduced to the configured 12-bit range.  The NVS durable store is
  modelled at the collaborator interface from the spec: absent (NotFound),
  corrupt (unreadable), or a stored blob; a stored blob of the wrong record
  count is the spec's "wrong size" corrupt case.
-/
import Mathlib

namespace Onion

/-- The onion_key_t record from onion_config.h: HID keycode (uint8_t),
touch threshold (uint16_t), and the is_pressed flag. -/
structure onion_key_t where
  keycode : Nat
  threshold : Nat
  is_pressed : Bool
deriving Repr, DecidableEq

/-- Default record used when indexing out of range (never reached by the
modelled callers, which stay in 0..15). -/
def keyD : onion_key_t := ⟨0, 0, false⟩

/-- DEFAULT_THRESHOLD from onion_config.h. -/
def DEFAULT_THRESHOLD : Nat := 3900

/-- MUX_CHANNELS_COUNT from onion_config.h. -/
def MUX_CHANNELS_COUNT : Nat := 16

/-- The compiled-in default lookup table onion_lut from onion_touch.c. -/
def onion_lut : List onion_key_t :=
  [⟨0x1A, DEFAULT_THRESHOLD, false⟩, ⟨0x16, DEFAULT_THRESHOLD, false⟩,
   ⟨0x04, DEFAULT_THRESHOLD, false⟩, ⟨0x07, DEFAULT_THRESHOLD, false⟩,
   ⟨0x2C, DEFAULT_THRESHOLD, false⟩, ⟨0x08, DEFAULT_THRESHOLD, false⟩,
   ⟨0x0B, DEFAULT_THRESHOLD, false⟩, ⟨0x0A, DEFAULT_THRESHOLD, false⟩,
   ⟨0x14, DEFAULT_THRESHOLD, false⟩, ⟨0x2B, DEFAULT_THRESHOLD, false⟩,
   ⟨0x4F, DEFAULT_THRESHOLD, false⟩, ⟨0x50, DEFAULT_THRESHOLD, false⟩,
   ⟨0x52, DEFAULT_THRESHOLD, false⟩, ⟨0x51, DEFAULT_THRESHOLD, false⟩,
   ⟨0x1F, DEFAULT_THRESHOLD, false⟩, ⟨0x29, DEFAULT_THRESHOLD, false⟩]

/-- The mutable statics shared by onion_touch.c / onion_ble.c:
onion_lut, last_states, last_raw_values.  classifyLog is a ghost field
recording the value returned by every classification
(onion_touch_read call), in call order; it is written only by
onion_touch_read and read by no modelled code. -/
structure TouchState where
  lut : List onion_key_t
  last_states : List Bool
  last_raw_values : List Nat
  classifyLog : List (Nat × Bool)
deriving Repr, DecidableEq

/-- State of the statics at process start: compiled-in onion_lut,
last_states = {0}, last_raw_values = {0}. -/
def bootTS : TouchState :=
  ⟨onion_lut, List.replicate 16 false, List.replicate 16 0, []⟩

/-- One call to adc1_get_raw: pops the next reading from the ADC stream.
The peripheral is configured with ADC_WIDTH_BIT_12 in onion_touch_init,
so a reading is in 0..4095. -/
def adc1_get_raw : List Nat → Nat × List Nat
  | [] => (0, [])
  | v :: rest => (v % 4096, rest)

/-- onion_touch_read from onion_touch.c: selects the MUX channel (no modelled
effect), takes 4 consecutive raw readings, truncates their sum through the
uint32 accumulator, shifts right by 2 and casts to uint16, caches the result
in last_raw_values[channel], and returns (adc_raw < threshold). -/
def onion_touch_read (channel : Nat) (s : TouchState) (adc : List Nat) :
    Bool × TouchState × List Nat :=
  let (r0, a0) := adc1_get_raw adc
  let (r1, a1) := adc1_get_raw a0
  let (r2, a2) := adc1_get_raw a1
  let (r3, a3) := adc1_get_raw a2
  let raw_sum := (r0 + r1 + r2 + r3) % 4294967296
  let adc_raw := (raw_sum >>> 2) % 65536
  let touched := decide (adc_raw < (s.lut.getD channel keyD).threshold)
  (touched,
   { s with last_raw_values := s.last_raw_values.set channel adc_raw,
            classifyLog := s.classifyLog ++ [(channel, touched)] },
   a3)

/-- onion_touch_has_changed from onion_touch.c: classifies the channel,
compares to last_states[channel]; on a difference stores the new state and
reports an edge, otherwise reports no edge. -/
def onion_touch_has_changed (channel : Nat) (s : TouchState) (adc : List Nat) :
    Bool × TouchState × List Nat :=
  let (current_state, s1, adc1) := onion_touch_read channel s adc
  if current_state ≠ s1.last_states.getD channel false then
    (true, { s1 with last_states := s1.last_states.set channel current_state }, adc1)
  else
    (false, s1, adc1)

/-- send_key_report from onion_ble.c: a no-op when conn_handle is the
sentinel 0xFFFF (disconnected); otherwise notifies one 8-byte report with
byte 2 = keycode when pressed.  The returned Option is the frame passed to
the transport notify primitive (none = notify never called).  The keycode
parameter is uint8_t, hence the reduction at the call boundary. -/
def send_key_report (conn_handle : Nat) (keycode : Nat) (pressed : Bool) :
    Option (List Nat) :=
  if conn_handle = 65535 then
    none
  else
    let report := List.replicate 8 0
    let report := if pressed then report.set 2 (keycode % 256) else report
    some report

/-- The body of the per-channel iteration in app_main (OnionController.c,
lines 55-68): check for an edge; on an edge, re-read the channel to obtain
is_pressed and dispatch a report.  Returns the new state, the remaining ADC
stream, the (keycode, pressed) arguments passed to send_key_report (none if
it was not called), and the frame the transport emitted. -/
def app_main_channel_step (conn_handle channel_idx : Nat)
    (s : TouchState) (adc : List Nat) :
    TouchState × List Nat × Option (Nat × Bool) × Option (List Nat) :=
  let (changed, s1, adc1) := onion_touch_has_changed channel_idx s adc
  if changed then
    let (is_pressed, s2, adc2) := onion_touch_read channel_idx s1 adc1
    let kc := (s2.lut.getD channel_idx keyD).keycode
    (s2, adc2, some (kc, is_pressed), send_key_report conn_handle kc is_pressed)
  else
    (s1, adc1, none, none)

/-- The for-loop of one scan cycle in app_main, over a list of channel
indices, threading activity_detected.  The trace records, per channel, the
dispatch arguments (none when no edge fired). -/
def app_main_scan (conn_handle : Nat) :
    List Nat → TouchState → List Nat → Bool →
    TouchState × List Nat × Bool × List (Nat × Option (Nat × Bool))
  | [], s, adc, act => (s, adc, act, [])
  | ch :: rest, s, adc, act =>
    let (s1, adc1, disp, _rep) := app_main_channel_step conn_handle ch s adc
    let act1 := if disp.isSome then true else act
    let (s2, adc2, act2, tr) := app_main_scan conn_handle rest s1 adc1 act1
    (s2, adc2, act2, (ch, disp) :: tr)

/-- One full scan cycle of app_main: sweep channels 0..15 with
activity_detected initially false, then choose the adaptive delay:
10 ms when activity was detected, else 50 ms. -/
def app_main_cycle (conn_handle : Nat) (s : TouchState) (adc : List Nat) :
    TouchState × List Nat × Bool × List (Nat × Option (Nat × Bool)) × Nat :=
  let r := app_main_scan conn_handle (List.range 16) s adc false
  (r.1, r.2.1, r.2.2.1, r.2.2.2, if r.2.2.1 then 10 else 50)

/-! ## NVS persistence (onion_config_init / onion_config_save) -/

/-- State of the Durable Store (NVS) entry under key "onion_lut", at the
collaborator interface from the spec: absent (nvs_get_blob reports
ESP_ERR_NVS_NOT_FOUND), corrupt (unreadable: nvs_get_blob reports some
other error), or a stored blob of channel records.  A stored blob whose
record count differs from 16 is the "wrong size" corrupt case: the read
fails with an error other than NOT_FOUND and the buffer is untouched. -/
inductive NvsData where
  | absent : NvsData
  | corrupt : NvsData
  | stored : List onion_key_t → NvsData
deriving Repr, DecidableEq

/-- onion_config_save from onion_touch.c: serializes the whole onion_lut
table as one blob under the fixed key and commits. -/
def onion_config_save (s : TouchState) (_st : NvsData) : NvsData :=
  NvsData.stored s.lut

/-- onion_config_init from onion_touch.c: reads the blob.  On NOT_FOUND,
keeps the compiled-in defaults and provisions NVS via onion_config_save;
on any other read error (corrupt / wrong size), logs and keeps the
defaults without writing; on success, overwrites the full onion_lut. -/
def onion_config_init (s : TouchState) (st : NvsData) : TouchState × NvsData :=
  match st with
  | NvsData.absent => (s, onion_config_save s st)
  | NvsData.corrupt => (s, st)
  | NvsData.stored b =>
      if b.length = 16 then ({ s with lut := b }, st) else (s, st)

/-! ## Host-link command protocol (onion_comms_task in onion_ble.c) -/

/-- A line emitted on the host link by the command handler.  cfgLine models
printf("CFG:%d,%d,%d\n", i, threshold, keycode). -/
inductive HostOut where
  | cfgLine : Nat → Nat → Nat → HostOut
deriving Repr, DecidableEq

/-- C isspace over the characters sscanf skips before a %d conversion. -/
def c_isspace (c : Char) : Bool :=
  c = ' ' || c = '\t' || c = '\n' || c = '\x0b' || c = '\x0c' || c = '\r'

/-- Maximal run of decimal digits, accumulating the value. -/
def scanDigits : List Char → Nat → Nat × List Char
  | [], acc => (acc, [])
  | c :: cs, acc =>
    if c.isDigit then scanDigits cs (10 * acc + (c.toNat - 48))
    else (acc, c :: cs)

/-- One sscanf %d conversion: skip whitespace, optional sign, then at least
one digit; fails (conversion count stops) when no digit follows. -/
def scanIntC (s : List Char) : Option (Int × List Char) :=
  let s1 := s.dropWhile c_isspace
  match s1 with
  | '-' :: c :: cs =>
      if c.isDigit then
        let (n, r) := scanDigits (c :: cs) 0
        some (-(n : Int), r)
      else none
  | '+' :: c :: cs =>
      if c.isDigit then
        let (n, r) := scanDigits (c :: cs) 0
        some ((n : Int), r)
      else none
  | c :: cs =>
      if c.isDigit then
        let (n, r) := scanDigits (c :: cs) 0
        some ((n : Int), r)
      else none
  | [] => none

/-- sscanf(line, "SET:%d,%d,%d", &ch, &thr, &key) == 3: the literal prefix,
three %d conversions separated by literal commas. -/
def parse_set_line (line : List Char) : Option (Int × Int × Int) :=
  match line with
  | 'S' :: 'E' :: 'T' :: ':' :: rest =>
    match scanIntC rest with
    | some (ch, r1) =>
      match r1 with
      | ',' :: r2 =>
        match scanIntC r2 with
        | some (thr, r3) =>
          match r3 with
          | ',' :: r4 =>
            match scanIntC r4 with
            | some (key, _) => some (ch, thr, key)
            | none => none
          | _ => none
        | none => none
      | _ => none
    | none => none
  | _ => none

/-- The CONNECT handshake dump: one CFG line per channel 0..15, in order,
printing (channel, threshold, keycode). -/
def cfgDump (s : TouchState) : List HostOut :=
  (List.range 16).map fun i =>
    HostOut.cfgLine i (s.lut.getD i keyD).threshold (s.lut.getD i keyD).keycode

/-- Dispatch of one complete nonempty command line in onion_comms_task
(onion_ble.c, lines 300-327).  Takes the is_app_connected flag, the shared
statics and the NVS state; returns their new values and the lines printed.
The SET branch stores threshold through the uint16_t field (reduction mod
2^16, C int-to-unsigned conversion) and keycode through the (uint8_t) cast
(reduction mod 2^8), then persists via onion_config_save. -/
def process_command (line : List Char) (is_app_connected : Bool)
    (s : TouchState) (st : NvsData) :
    Bool × TouchState × NvsData × List HostOut :=
  if line = "CONNECT".data then
    (true, s, st, cfgDump s)
  else if line = "DISCONNECT".data then
    (false, s, st, [])
  else if line.take 4 = "SET:".data then
    match parse_set_line line with
    | some (ch, thr, key) =>
      if 0 ≤ ch ∧ ch < 16 then
        let i := ch.toNat
        let old := s.lut.getD i keyD
        let upd := { old with threshold := (thr % 65536).toNat,
                              keycode := (key % 256).toNat }
        let s' := { s with lut := s.lut.set i upd }
        (is_app_connected, s', onion_config_save s' st, [])
      else
        (is_app_connected, s, st, [])
    | none => (is_app_connected, s, st, [])
  else
    (is_app_connected, s, st, [])

/-- The last value returned by the classifier for a channel, read off the
ghost classification log. -/
def last_classify (ch : Nat) (log : List (Nat × Bool)) : Option Bool :=
  ((log.filter fun e => e.1 = ch).getLast?).map fun e => e.2

/-! ## General list helpers -/

theorem getD_set_self {α : Type} (l : List α) (i : Nat) (a d : α)
    (h : i < l.length) : (l.set i a).getD i d = a := by
  simp [List.getD_eq_getElem?_getD, List.getElem?_set_self h]

theorem getD_set_ne {α : Type} (l : List α) {i j : Nat} (a d : α)
    (h : i ≠ j) : (l.set i a).getD j d = l.getD j d := by
  simp [List.getD_eq_getElem?_getD, List.getElem?_set_ne h]

/-! ## Structural lemmas about the classifier and edge detector -/

theorem read_lut (ch : Nat) (s : TouchState) (adc : List Nat) :
    (onion_touch_read ch s adc).2.1.lut = s.lut := rfl

theorem read_last_states (ch : Nat) (s : TouchState) (adc : List Nat) :
    (onion_touch_read ch s adc).2.1.last_states = s.last_states := rfl

/-- onion_touch_has_changed, rewritten through the projections of the
classifier result (definitional by structure eta). -/
theorem has_changed_eq (ch : Nat) (s : TouchState) (adc : List Nat) :
    onion_touch_has_changed ch s adc =
      (let r := onion_touch_read ch s adc
       if r.1 ≠ r.2.1.last_states.getD ch false then
         (true, { r.2.1 with last_states := r.2.1.last_states.set ch r.1 }, r.2.2)
       else (false, r.2.1, r.2.2)) := rfl

theorem has_changed_lut (ch : Nat) (s : TouchState) (adc : List Nat) :
    (onion_touch_has_changed ch s adc).2.1.lut = s.lut := by
  rw [has_changed_eq]
  dsimp only
  split <;> rfl

theorem has_changed_adc (ch : Nat) (s : TouchState) (adc : List Nat) :
    (onion_touch_has_changed ch s adc).2.2 = (onion_touch_read ch s adc).2.2 := by
  rw [has_changed_eq]
  dsimp only
  split <;> rfl

theorem has_changed_fst_iff (ch : Nat) (s : TouchState) (adc : List Nat) :
    (onion_touch_has_changed ch s adc).1 = true ↔
      (onion_touch_read ch s adc).1 ≠ s.last_states.getD ch false := by
  rw [has_changed_eq]
  dsimp only
  rw [read_last_states]
  split <;> simp_all

theorem has_changed_last_states_len (ch : Nat) (s : TouchState) (adc : List Nat) :
    (onion_touch_has_changed ch s adc).2.1.last_states.length =
      s.last_states.length := by
  rw [has_changed_eq]
  dsimp only
  split <;> simp [read_last_states]

theorem has_changed_last_states_self (ch : Nat) (s : TouchState) (adc : List Nat)
    (h : ch < s.last_states.length) :
    (onion_touch_has_changed ch s adc).2.1.last_states.getD ch false =
      (onion_touch_read ch s adc).1 := by
  rw [has_changed_eq]
  dsimp only
  split
  · exact getD_set_self _ _ _ _ (by rw [read_last_states]; exact h)
  · next hcond =>
    rw [read_last_states]
    simp only [ne_eq, not_not] at hcond
    rw [read_last_states] at hcond
    exact hcond.symm

theorem has_changed_last_states_ne (ch : Nat) (s : TouchState) (adc : List Nat)
    {j : Nat} (h : j ≠ ch) :
    (onion_touch_has_changed ch s adc).2.1.last_states.getD j false =
      s.last_states.getD j false := by
  rw [has_changed_eq]
  dsimp only
  split
  · rw [getD_set_ne _ _ _ (fun hc => h hc.symm), read_last_states]
  · rw [read_last_states]

/-! ## Structural lemmas about the scheduler's per-channel step -/

/-- app_main_channel_step, rewritten through projections (definitional). -/
theorem step_eq (c ch : Nat) (s : TouchState) (adc : List Nat) :
    app_main_channel_step c ch s adc =
      (let h := onion_touch_has_changed ch s adc
       if h.1 then
         (let r := onion_touch_read ch h.2.1 h.2.2
          let kc := (r.2.1.lut.getD ch keyD).keycode
          (r.2.1, r.2.2, some (kc, r.1), send_key_report c kc r.1))
       else (h.2.1, h.2.2, none, none)) := rfl

theorem step_lut (c ch : Nat) (s : TouchState) (adc : List Nat) :
    (app_main_channel_step c ch s adc).1.lut = s.lut := by
  rw [step_eq]
  dsimp only
  split
  · rw [read_lut, has_changed_lut]
  · rw [has_changed_lut]

theorem step_last_states (c ch : Nat) (s : TouchState) (adc : List Nat) :
    (app_main_channel_step c ch s adc).1.last_states =
      (onion_touch_has_changed ch s adc).2.1.last_states := by
  rw [step_eq]
  dsimp only
  split
  · rw [read_last_states]
  · rfl

theorem step_last_states_len (c ch : Nat) (s : TouchState) (adc : List Nat) :
    (app_main_channel_step c ch s adc).1.last_states.length =
      s.last_states.length := by
  rw [step_last_states, has_changed_last_states_len]

theorem step_last_states_ne (c ch : Nat) (s : TouchState) (adc : List Nat)
    {j : Nat} (h : j ≠ ch) :
    (app_main_channel_step c ch s adc).1.last_states.getD j false =
      s.last_states.getD j false := by
  rw [step_last_states, has_changed_last_states_ne _ _ _ h]

theorem step_disp_isSome (c ch : Nat) (s : TouchState) (adc : List Nat) :
    (app_main_channel_step c ch s adc).2.2.1.isSome =
      (onion_touch_has_changed ch s adc).1 := by
  rw [step_eq]
  dsimp only
  split <;> simp_all

/-- An edge is dispatched by the step exactly when the step changed the
stored debounce state of its channel. -/
theorem step_flip (c ch : Nat) (s : TouchState) (adc : List Nat)
    (h : ch < s.last_states.length) :
    (app_main_channel_step c ch s adc).2.2.1.isSome = true ↔
      (app_main_channel_step c ch s adc).1.last_states.getD ch false ≠
        s.last_states.getD ch false := by
  rw [step_disp_isSome, step_last_states, has_changed_last_states_self _ _ _ h,
    has_changed_fst_iff]

theorem step_keycode (c ch : Nat) (s : TouchState) (adc : List Nat)
    (kc : Nat) (v : Bool)
    (hd : (app_main_channel_step c ch s adc).2.2.1 = some (kc, v)) :
    kc = (s.lut.getD ch keyD).keycode := by
  rw [step_eq] at hd
  dsimp only at hd
  split at hd
  · rw [read_lut, has_changed_lut] at hd
    exact (Prod.mk.injEq _ _ _ _ ▸ Option.some.injEq _ _ ▸ hd).1.symm
  · exact absurd hd (by simp)

/-! ## Structural lemmas about the scan loop -/

theorem scan_nil (c : Nat) (s : TouchState) (adc : List Nat) (act : Bool) :
    app_main_scan c [] s adc act = (s, adc, act, []) := rfl

/-- The cons equation of the scan loop, through projections (definitional). -/
theorem scan_cons (c ch : Nat) (rest : List Nat) (s : TouchState)
    (adc : List Nat) (act : Bool) :
    app_main_scan c (ch :: rest) s adc act =
      (let p := app_main_channel_step c ch s adc
       let q := app_main_scan c rest p.1 p.2.1
         (if p.2.2.1.isSome then true else act)
       (q.1, q.2.1, q.2.2.1, (ch, p.2.2.1) :: q.2.2.2)) := rfl

theorem scan_trace_fst (c : Nat) (L : List Nat) :
    ∀ (s : TouchState) (adc : List Nat) (act : Bool),
      (app_main_scan c L s adc act).2.2.2.map Prod.fst = L := by
  induction L with
  | nil => intro s adc act; rfl
  | cons ch rest ih =>
    intro s adc act
    rw [scan_cons]
    dsimp only
    rw [List.map_cons, ih]

theorem scan_act (c : Nat) (L : List Nat) :
    ∀ (s : TouchState) (adc : List Nat) (act : Bool),
      (app_main_scan c L s adc act).2.2.1 =
        (act || ((app_main_scan c L s adc act).2.2.2.any fun e => e.2.isSome)) := by
  induction L with
  | nil => intro s adc act; simp [scan_nil]
  | cons ch rest ih =>
    intro s adc act
    rw [scan_cons]
    dsimp only
    rw [ih, List.any_cons]
    cases hb : (app_main_channel_step c ch s adc).2.2.1.isSome <;>
      cases act <;> simp

theorem scan_lut (c : Nat) (L : List Nat) :
    ∀ (s : TouchState) (adc : List Nat) (act : Bool),
      (app_main_scan c L s adc act).1.lut = s.lut := by
  induction L with
  | nil => intro s adc act; rfl
  | cons ch rest ih =>
    intro s adc act
    rw [scan_cons]
    dsimp only
    rw [ih, step_lut]

theorem scan_last_states_len (c : Nat) (L : List Nat) :
    ∀ (s : TouchState) (adc : List Nat) (act : Bool),
      (app_main_scan c L s adc act).1.last_states.length =
        s.last_states.length := by
  induction L with
  | nil => intro s adc act; rfl
  | cons ch rest ih =>
    intro s adc act
    rw [scan_cons]
    dsimp only
    rw [ih, step_last_states_len]

theorem scan_frame (c : Nat) (L : List Nat) :
    ∀ (s : TouchState) (adc : List Nat) (act : Bool) {j : Nat}, j ∉ L →
      (app_main_scan c L s adc act).1.last_states.getD j false =
        s.last_states.getD j false := by
  induction L with
  | nil => intro s adc act j _; rfl
  | cons ch rest ih =>
    intro s adc act j hj
    rw [scan_cons]
    dsimp only
    rw [ih _ _ _ (fun hm => hj (List.mem_cons_of_mem _ hm)),
      step_last_states_ne _ _ _ _
        (fun he => hj (by rw [he]; exact List.mem_cons_self _ _))]

theorem scan_keycode (c : Nat) (L : List Nat) :
    ∀ (s : TouchState) (adc : List Nat) (act : Bool),
      ∀ e ∈ (app_main_scan c L s adc act).2.2.2, ∀ (kc : Nat) (v : Bool),
        e.2 = some (kc, v) → kc = (s.lut.getD e.1 keyD).keycode := by
  induction L with
  | nil => intro s adc act e he; exact absurd he (by simp [scan_nil])
  | cons ch rest ih =>
    intro s adc act e he kc v hd
    rw [scan_cons] at he
    dsimp only at he
    rcases List.mem_cons.1 he with h1 | h2
    · subst h1
      exact step_keycode c ch s adc kc v hd
    · have := ih _ _ _ e h2 kc v hd
      rwa [step_lut] at this

/-- Every trace entry of the scan loop dispatched exactly when the loop
changed its channel's debounce state, provided the visited channels are
distinct and index into last_states. -/
theorem scan_flip (c : Nat) (L : List Nat) :
    ∀ (s : TouchState) (adc : List Nat) (act : Bool), L.Nodup →
      (∀ ch ∈ L, ch < s.last_states.length) →
      ∀ e ∈ (app_main_scan c L s adc act).2.2.2,
        (e.2.isSome = true ↔
          (app_main_scan c L s adc act).1.last_states.getD e.1 false ≠
            s.last_states.getD e.1 false) := by
  induction L with
  | nil => intro s adc act _ _ e he; exact absurd he (by simp [scan_nil])
  | cons ch rest ih =>
    intro s adc act hnd hlt e he
    have hnd' := List.nodup_cons.1 hnd
    rw [scan_cons] at he ⊢
    dsimp only at he ⊢
    rcases List.mem_cons.1 he with h1 | h2
    · subst h1
      dsimp only
      rw [scan_frame c rest _ _ _ hnd'.1,
        ← step_flip c ch s adc (hlt ch (List.mem_cons_self _ _))]
    · have hlt' : ∀ x ∈ rest, x < (app_main_channel_step c ch s adc).1.last_states.length := by
        intro x hx
        rw [step_last_states_len]
        exact hlt x (List.mem_cons_of_mem _ hx)
      have hx : e.1 ∈ rest := by
        rw [← scan_trace_fst c rest (app_main_channel_step c ch s adc).1]
        exact List.mem_map_of_mem Prod.fst h2
      have hne : e.1 ≠ ch := fun hcc => hnd'.1 (hcc ▸ hx)
      rw [ih _ _ _ hnd'.2 hlt' e h2, step_last_states_ne _ _ _ _ hne]

/-- app_main_cycle, rewritten through projections (definitional). -/
theorem cycle_eq (c : Nat) (s : TouchState) (adc : List Nat) :
    app_main_cycle c s adc =
      (let r := app_main_scan c (List.range 16) s adc false
       (r.1, r.2.1, r.2.2.1, r.2.2.2, if r.2.2.1 then 10 else 50)) := rfl

/-! ## Claim theorems -/

/-- Claim C9: every scan cycle with at least one edge schedules the next
cycle after the short interval (10 time units); every cycle with zero edges
schedules the long interval (50 time units).  The trace entry of a channel
carries `some` dispatch arguments exactly when an edge fired there. -/
theorem claim_C9 (conn : Nat) (s : TouchState) (adc : List Nat) :
    ((app_main_cycle conn s adc).2.2.2.2 = 10 ↔
      ((app_main_cycle conn s adc).2.2.2.1.any fun e => e.2.isSome) = true) ∧
    ((app_main_cycle conn s adc).2.2.2.2 = 50 ↔
      ((app_main_cycle conn s adc).2.2.2.1.any fun e => e.2.isSome) = false) := by
  rw [cycle_eq]
  dsimp only
  have h := scan_act conn (List.range 16) s adc false
  rw [Bool.false_or] at h
  rw [← h]
  cases hb : (app_main_scan conn (List.range 16) s adc false).2.2.1 <;> simp [hb]

/-- Claim C1 (amended): each scan cycle iterates channels 0..15 in order
calling detect_edge; whenever detect_edge reports an edge the scheduler
calls dispatch with keymap[channel].keycode and marks the cycle active —
but the pressed argument it passes is a fresh second classification of the
channel, not the edge value stored by detect_edge.  Formally: the trace
visits 0..15 in order; the activity flag equals "some entry dispatched";
every dispatched keycode is the channel's keymap keycode; and an entry
dispatched exactly when the cycle changed that channel's stored pressed
state. -/
theorem claim_C1_amended (conn : Nat) (s : TouchState) (adc : List Nat)
    (hlen : s.last_states.length = 16) :
    ((app_main_cycle conn s adc).2.2.2.1.map Prod.fst = List.range 16) ∧
    ((app_main_cycle conn s adc).2.2.1 =
      ((app_main_cycle conn s adc).2.2.2.1.any fun e => e.2.isSome)) ∧
    (∀ e ∈ (app_main_cycle conn s adc).2.2.2.1, ∀ (kc : Nat) (v : Bool),
      e.2 = some (kc, v) → kc = (s.lut.getD e.1 keyD).keycode) ∧
    (∀ e ∈ (app_main_cycle conn s adc).2.2.2.1,
      (e.2.isSome = true ↔
        (app_main_cycle conn s adc).1.last_states.getD e.1 false ≠
          s.last_states.getD e.1 false)) := by
  rw [cycle_eq]
  dsimp only
  refine ⟨scan_trace_fst _ _ _ _ _, ?_, scan_keycode _ _ _ _ _, ?_⟩
  · have h := scan_act conn (List.range 16) s adc false
    rwa [Bool.false_or] at h
  · exact scan_flip conn (List.range 16) s adc false (List.nodup_range 16)
      (fun ch hch => by rw [hlen]; exact List.mem_range.1 hch)

theorem claim_C1_amended_witness :
    bootTS.last_states.length = 16 ∧
    (((app_main_cycle 1 bootTS [500, 500, 500, 500]).2.2.2.1.map Prod.fst =
        List.range 16) ∧
     ((app_main_cycle 1 bootTS [500, 500, 500, 500]).2.2.1 =
       ((app_main_cycle 1 bootTS [500, 500, 500, 500]).2.2.2.1.any
         fun e => e.2.isSome)) ∧
     (∀ e ∈ (app_main_cycle 1 bootTS [500, 500, 500, 500]).2.2.2.1,
       ∀ (kc : Nat) (v : Bool),
         e.2 = some (kc, v) → kc = (bootTS.lut.getD e.1 keyD).keycode) ∧
     (∀ e ∈ (app_main_cycle 1 bootTS [500, 500, 500, 500]).2.2.2.1,
       (e.2.isSome = true ↔
         (app_main_cycle 1 bootTS [500, 500, 500, 500]).1.last_states.getD
             e.1 false ≠
           bootTS.last_states.getD e.1 false))) :=
  ⟨by decide, claim_C1_amended 1 bootTS [500, 500, 500, 500] (by decide)⟩

/-- Claim C1 counterexample: with the default configuration and the ADC
stream 500,500,500,500,4000,4000,4000,4000 on channel 0, detect_edge
reports a press edge (stored pressed state becomes true), yet dispatch is
called with pressed = false, because the scheduler re-classifies the channel
for the pressed argument and the re-sample falls on the other side of the
threshold.  So the pressed argument does not equal the edge value. -/
theorem claim_C1_counterexample :
    ((app_main_cycle 1 bootTS
        [500, 500, 500, 500, 4000, 4000, 4000, 4000]).2.2.2.1.getD 0 (0, none) =
      (0, some (26, false))) ∧
    ((app_main_cycle 1 bootTS
        [500, 500, 500, 500, 4000, 4000, 4000, 4000]).1.last_states.getD 0 false =
      true) := by decide

/-- Claim C3 (amended): the stored pressed state of a channel equals the
value returned by the classify call made inside detect_edge — detect_edge
is the sole operation that mutates it: classify itself never changes it,
detect_edge changes only its own channel, and neither load nor save nor a
host SET command ever modifies it.  (The claim's stronger reading — pressed
always equals the last value returned by the classifier — fails, because
the scheduler's dispatch-time re-classification is not stored; see the
counterexample.) -/
theorem claim_C3_amended :
    (∀ (ch : Nat) (s : TouchState) (adc : List Nat),
      (onion_touch_read ch s adc).2.1.last_states = s.last_states) ∧
    (∀ (ch : Nat) (s : TouchState) (adc : List Nat), ch < s.last_states.length →
      (onion_touch_has_changed ch s adc).2.1.last_states.getD ch false =
        (onion_touch_read ch s adc).1) ∧
    (∀ (ch : Nat) (s : TouchState) (adc : List Nat) (j : Nat), j ≠ ch →
      (onion_touch_has_changed ch s adc).2.1.last_states.getD j false =
        s.last_states.getD j false) ∧
    (∀ (s : TouchState) (st : NvsData),
      (onion_config_init s st).1.last_states = s.last_states) ∧
    (∀ (line : List Char) (app : Bool) (s : TouchState) (st : NvsData),
      (process_command line app s st).2.1.last_states = s.last_states) := by
  refine ⟨fun ch s adc => rfl,
    fun ch s adc h => has_changed_last_states_self ch s adc h,
    fun ch s adc j h => has_changed_last_states_ne ch s adc h,
    fun s st => ?_, fun line app s st => ?_⟩
  · unfold onion_config_init onion_config_save
    rcases st with _ | _ | b
    · rfl
    · rfl
    · dsimp only
      split <;> rfl
  · unfold process_command
    repeat' split
    all_goals rfl

theorem claim_C3_amended_witness :
    0 < bootTS.last_states.length ∧
    (onion_touch_has_changed 0 bootTS [500, 500, 500, 500]).2.1.last_states.getD
        0 false =
      (onion_touch_read 0 bootTS [500, 500, 500, 500]).1 :=
  ⟨by decide, claim_C3_amended.2.1 0 bootTS [500, 500, 500, 500] (by decide)⟩

/-- Claim C3 counterexample: after one scheduler step on channel 0 with ADC
stream 500,500,500,500,4000,4000,4000,4000, the stored pressed state is
true, but the last value returned by the classifier for channel 0 (per the
ghost classification log) is false — the dispatch-time re-classification is
never written back, so pressed does not always equal the classifier's last
value. -/
theorem claim_C3_counterexample :
    ((app_main_channel_step 1 0 bootTS
        [500, 500, 500, 500, 4000, 4000, 4000, 4000]).1.last_states.getD 0 false =
      true) ∧
    (last_classify 0 (app_main_channel_step 1 0 bootTS
        [500, 500, 500, 500, 4000, 4000, 4000, 4000]).1.classifyLog =
      some false) := by decide

/-- Claim C4: debounce idempotence — immediately after detect_edge reports
an edge on a channel, a subsequent classification of that channel yielding
the same boolean produces no further edge; consecutive identical readings
never re-trigger. -/
theorem claim_C4 (ch : Nat) (s : TouchState) (adc adc2 : List Nat)
    (_hch : ch < s.last_states.length)
    (_hedge : (onion_touch_has_changed ch s adc).1 = true)
    (hsame : (onion_touch_read ch (onion_touch_has_changed ch s adc).2.1 adc2).1 =
      (onion_touch_has_changed ch s adc).2.1.last_states.getD ch false) :
    (onion_touch_has_changed ch (onion_touch_has_changed ch s adc).2.1 adc2).1 =
      false := by
  cases hb : (onion_touch_has_changed ch (onion_touch_has_changed ch s adc).2.1
      adc2).1
  · rfl
  · exact absurd hsame ((has_changed_fst_iff _ _ _).1 hb)

theorem claim_C4_witness :
    (0 < bootTS.last_states.length ∧
     (onion_touch_has_changed 0 bootTS [500, 500, 500, 500]).1 = true ∧
     (onion_touch_read 0 (onion_touch_has_changed 0 bootTS
         [500, 500, 500, 500]).2.1 [600, 600, 600, 600]).1 =
       (onion_touch_has_changed 0 bootTS
         [500, 500, 500, 500]).2.1.last_states.getD 0 false) ∧
    (onion_touch_has_changed 0 (onion_touch_has_changed 0 bootTS
        [500, 500, 500, 500]).2.1 [600, 600, 600, 600]).1 = false :=
  ⟨⟨by decide, by decide, by decide⟩,
   claim_C4 0 bootTS [500, 500, 500, 500] [600, 600, 600, 600]
     (by decide) (by decide) (by decide)⟩

/-- Claim C5: at boot, when the Durable Store reports NotFound the
compiled-in defaults are left in place and immediately persisted
(first-boot provisioning); when it reports Corrupt — unreadable, or a
stored blob of the wrong size — the defaults are kept and nothing is
persisted.  In both failure cases the in-memory keymap equals the
compiled-in defaults afterwards.  (The embedding is a total function, so
neither case aborts.) -/
theorem claim_C5 :
    ((onion_config_init bootTS NvsData.absent).1.lut = onion_lut ∧
     (onion_config_init bootTS NvsData.absent).2 = NvsData.stored onion_lut) ∧
    ((onion_config_init bootTS NvsData.corrupt).1.lut = onion_lut ∧
     (onion_config_init bootTS NvsData.corrupt).2 = NvsData.corrupt) ∧
    (∀ b : List onion_key_t, b.length ≠ 16 →
      (onion_config_init bootTS (NvsData.stored b)).1.lut = onion_lut ∧
      (onion_config_init bootTS (NvsData.stored b)).2 = NvsData.stored b) := by
  refine ⟨⟨rfl, rfl⟩, ⟨rfl, rfl⟩, fun b hb => ?_⟩
  unfold onion_config_init
  dsimp only
  rw [if_neg hb]
  exact ⟨rfl, rfl⟩

theorem claim_C5_witness :
    ([] : List onion_key_t).length ≠ 16 ∧
    ((onion_config_init bootTS (NvsData.stored [])).1.lut = onion_lut ∧
     (onion_config_init bootTS (NvsData.stored [])).2 = NvsData.stored []) :=
  ⟨by decide, claim_C5.2.2 [] (by decide)⟩

/-- Claim C6: dispatch with no active connection (conn_handle = 0xFFFF) is
a no-op that never calls the transport notify primitive; otherwise exactly
one 8-byte report is notified, with byte 0 = 0 (modifier), byte 1 = 0
(reserved), byte 2 = keycode if pressed else 0, bytes 3-7 = 0. -/
theorem claim_C6 :
    (∀ (kc : Nat) (p : Bool), send_key_report 65535 kc p = none) ∧
    (∀ (conn kc : Nat) (p : Bool), conn ≠ 65535 →
      send_key_report conn kc p =
        some [0, 0, if p then kc % 256 else 0, 0, 0, 0, 0, 0]) := by
  constructor
  · intro kc p
    unfold send_key_report
    rw [if_pos rfl]
  · intro conn kc p h
    unfold send_key_report
    rw [if_neg h]
    cases p <;> rfl

theorem claim_C6_witness :
    (1 : Nat) ≠ 65535 ∧
    send_key_report 1 26 true = some [0, 0, 26 % 256, 0, 0, 0, 0, 0] :=
  ⟨by decide, claim_C6.2 1 26 true (by decide)⟩

/-- A line that sscanf accepts as SET:%d,%d,%d starts with the literal
"SET:". -/
theorem parse_set_line_prefix (l : List Char) (t : Int × Int × Int)
    (h : parse_set_line l = some t) : l.take 4 = "SET:".data := by
  unfold parse_set_line at h
  split at h
  · rfl
  · exact absurd h (by simp)

/-- Evaluation of process_command on a line that parses as a SET command
with an in-range channel: the record is updated through the uint16/uint8
conversions and the new table is persisted; nothing is printed. -/
theorem process_command_set_in_range (line : List Char) (app : Bool)
    (s : TouchState) (st : NvsData) (ch thr key : Int)
    (hp : parse_set_line line = some (ch, thr, key))
    (h0 : 0 ≤ ch) (h1 : ch < 16) :
    process_command line app s st =
      (app,
       { s with lut := s.lut.set ch.toNat { s.lut.getD ch.toNat keyD with threshold := (thr % 65536).toNat, keycode := (key % 256).toNat } },
       NvsData.stored (s.lut.set ch.toNat { s.lut.getD ch.toNat keyD with threshold := (thr % 65536).toNat, keycode := (key % 256).toNat }),
       []) := by
  have hpre := parse_set_line_prefix line _ hp
  have hc : ¬ line = "CONNECT".data := by
    intro he
    rw [he] at hpre
    exact absurd hpre (by decide)
  have hd : ¬ line = "DISCONNECT".data := by
    intro he
    rw [he] at hpre
    exact absurd hpre (by decide)
  unfold process_command
  rw [if_neg hc, if_neg hd, if_pos hpre, hp]
  dsimp only
  rw [if_pos ⟨h0, h1⟩]
  rfl

/-- Evaluation of process_command on a line that parses as a SET command
with an out-of-range channel: everything is left untouched and nothing is
printed. -/
theorem process_command_set_out_of_range (line : List Char) (app : Bool)
    (s : TouchState) (st : NvsData) (ch thr key : Int)
    (hp : parse_set_line line = some (ch, thr, key))
    (hrange : ch < 0 ∨ 16 ≤ ch) :
    process_command line app s st = (app, s, st, []) := by
  have hpre := parse_set_line_prefix line _ hp
  have hc : ¬ line = "CONNECT".data := by
    intro he
    rw [he] at hpre
    exact absurd hpre (by decide)
  have hd : ¬ line = "DISCONNECT".data := by
    intro he
    rw [he] at hpre
    exact absurd hpre (by decide)
  unfold process_command
  rw [if_neg hc, if_neg hd, if_pos hpre, hp]
  dsimp only
  rw [if_neg (by omega)]

/-- Loading a full-size stored blob replaces the whole table and nothing
else. -/
theorem config_init_stored (s : TouchState) (b : List onion_key_t)
    (hb : b.length = 16) :
    onion_config_init s (NvsData.stored b) =
      ({ s with lut := b }, NvsData.stored b) := by
  unfold onion_config_init
  dsimp only
  rw [if_pos hb]

/-- Claim C2: round-trip persistence — save() followed by a fresh load()
(simulating restart) reproduces the exact 16 (keycode, threshold) pairs,
and the debounce pressed state after the restart is false on every channel
(it lives in last_states, which the persisted blob never touches).  In
particular, SET:5,1000,4 followed by load() from the just-saved blob yields
channel 5 with threshold 1000 and keycode 4, all other channels carrying
their previous records. -/
theorem claim_C2 (s : TouchState) (st : NvsData) (h : s.lut.length = 16) :
    ((onion_config_init bootTS (onion_config_save s st)).1.lut.map
        (fun k => (k.keycode, k.threshold)) =
      s.lut.map (fun k => (k.keycode, k.threshold)) ∧
     (onion_config_init bootTS (onion_config_save s st)).1.last_states =
       List.replicate 16 false) ∧
    ((((onion_config_init bootTS
          (process_command "SET:5,1000,4".data false s st).2.2.1).1.lut.getD 5
            keyD).threshold = 1000) ∧
     (((onion_config_init bootTS
          (process_command "SET:5,1000,4".data false s st).2.2.1).1.lut.getD 5
            keyD).keycode = 4) ∧
     (∀ i : Nat, i ≠ 5 →
       (onion_config_init bootTS
          (process_command "SET:5,1000,4".data false s st).2.2.1).1.lut.getD i
            keyD = s.lut.getD i keyD) ∧
     ((onion_config_init bootTS
          (process_command "SET:5,1000,4".data false s st).2.2.1).1.last_states =
        List.replicate 16 false)) := by
  constructor
  · rw [show onion_config_save s st = NvsData.stored s.lut from rfl,
      config_init_stored bootTS s.lut h]
    exact ⟨rfl, rfl⟩
  · rw [process_command_set_in_range "SET:5,1000,4".data false s st 5 1000 4
      (by decide) (by decide) (by decide)]
    dsimp only
    rw [show ((5 : Int)).toNat = 5 from rfl]
    rw [config_init_stored bootTS _ (by rw [List.length_set]; exact h)]
    dsimp only
    refine ⟨?_, ?_, fun i hi => ?_, rfl⟩
    · rw [getD_set_self _ _ _ _ (by rw [h]; norm_num)]
      show ((1000 : Int) % 65536).toNat = 1000
      decide
    · rw [getD_set_self _ _ _ _ (by rw [h]; norm_num)]
      show ((4 : Int) % 256).toNat = 4
      decide
    · rw [getD_set_ne _ _ _ (fun he => hi he.symm)]

theorem claim_C2_witness :
    bootTS.lut.length = 16 ∧
    ((onion_config_init bootTS (onion_config_save bootTS NvsData.absent)).1.lut.map
        (fun k => (k.keycode, k.threshold)) =
      bootTS.lut.map (fun k => (k.keycode, k.threshold)) ∧
     (onion_config_init bootTS
        (onion_config_save bootTS NvsData.absent)).1.last_states =
       List.replicate 16 false) :=
  ⟨by decide, (claim_C2 bootTS NvsData.absent (by decide)).1⟩

/-- Claim C7: a SET command whose channel is out of range (channel < 0 or
channel >= 16) leaves every keymap record unchanged, triggers no save, and
produces no output on the host link. -/
theorem claim_C7 (line : List Char) (app : Bool) (s : TouchState)
    (st : NvsData) (ch thr key : Int)
    (hp : parse_set_line line = some (ch, thr, key))
    (hrange : ch < 0 ∨ 16 ≤ ch) :
    process_command line app s st = (app, s, st, []) :=
  process_command_set_out_of_range line app s st ch thr key hp hrange

theorem claim_C7_witness :
    (parse_set_line "SET:20,100,5".data = some (20, 100, 5) ∧
     ((20 : Int) < 0 ∨ 16 ≤ (20 : Int))) ∧
    process_command "SET:20,100,5".data false bootTS NvsData.absent =
      (false, bootTS, NvsData.absent, []) :=
  ⟨⟨by decide, by decide⟩,
   claim_C7 "SET:20,100,5".data false bootTS NvsData.absent 20 100 5
     (by decide) (by decide)⟩

/-- Claim C10: for a SET command whose three integers parse and whose
channel is in range, the stored threshold is the parsed threshold reduced
modulo 2^16 and the stored keycode is the parsed keycode reduced modulo
2^8 (C conversion of int to the unsigned field types), and the updated
table is persisted with no output. -/
theorem claim_C10 (line : List Char) (app : Bool) (s : TouchState)
    (st : NvsData) (ch thr key : Int)
    (hp : parse_set_line line = some (ch, thr, key))
    (h0 : 0 ≤ ch) (h1 : ch < 16) (hl : s.lut.length = 16) :
    (((process_command line app s st).2.1.lut.getD ch.toNat keyD).threshold =
        (thr % 65536).toNat ∧
     ((process_command line app s st).2.1.lut.getD ch.toNat keyD).keycode =
        (key % 256).toNat) ∧
    ((process_command line app s st).2.2.1 =
      NvsData.stored (process_command line app s st).2.1.lut ∧
     (process_command line app s st).2.2.2 = []) := by
  rw [process_command_set_in_range line app s st ch thr key hp h0 h1]
  dsimp only
  have hlt : ch.toNat < s.lut.length := by
    rw [hl]
    omega
  rw [getD_set_self _ _ _ _ hlt]
  exact ⟨⟨rfl, rfl⟩, rfl, rfl⟩

theorem claim_C10_witness :
    (parse_set_line "SET:0,70000,300".data = some (0, 70000, 300) ∧
     (0 : Int) ≤ 0 ∧ (0 : Int) < 16 ∧ bootTS.lut.length = 16) ∧
    ((((process_command "SET:0,70000,300".data false bootTS
          NvsData.absent).2.1.lut.getD 0 keyD).threshold = 4464 ∧
      ((process_command "SET:0,70000,300".data false bootTS
          NvsData.absent).2.1.lut.getD 0 keyD).keycode = 44) ∧
     ((process_command "SET:0,70000,300".data false bootTS
          NvsData.absent).2.2.1 =
       NvsData.stored (process_command "SET:0,70000,300".data false bootTS
          NvsData.absent).2.1.lut ∧
      (process_command "SET:0,70000,300".data false bootTS
          NvsData.absent).2.2.2 = [])) :=
  ⟨⟨by decide, by decide, by decide, by decide⟩,
   claim_C10 "SET:0,70000,300".data false bootTS NvsData.absent 0 70000 300
     (by decide) (by decide) (by decide) (by decide)⟩

/-- Claim C8: classify(channel) returns (sample < keymap[channel].threshold)
where the sample is the truncating integer mean of the 4 consecutive raw
readings the call consumes, and the fresh sample is written into the Raw
Sample Cache slot of the channel.  Concretely: raw sample 500 against the
default threshold 3900 classifies as touched, raw sample 4000 as not
touched. -/
theorem claim_C8 :
    (∀ (channel : Nat) (s : TouchState) (v0 v1 v2 v3 : Nat) (rest : List Nat),
      v0 < 4096 → v1 < 4096 → v2 < 4096 → v3 < 4096 →
      onion_touch_read channel s (v0 :: v1 :: v2 :: v3 :: rest) =
        (decide ((v0 + v1 + v2 + v3) / 4 < (s.lut.getD channel keyD).threshold),
         { s with
           last_raw_values :=
             s.last_raw_values.set channel ((v0 + v1 + v2 + v3) / 4),
           classifyLog := s.classifyLog ++
             [(channel, decide ((v0 + v1 + v2 + v3) / 4 <
                 (s.lut.getD channel keyD).threshold))] },
         rest)) ∧
    (onion_touch_read 0 bootTS [500, 500, 500, 500]).1 = true ∧
    (onion_touch_read 0 bootTS [4000, 4000, 4000, 4000]).1 = false := by
  refine ⟨?_, by decide, by decide⟩
  intro channel s v0 v1 v2 v3 rest h0 h1 h2 h3
  unfold onion_touch_read adc1_get_raw
  dsimp only
  have hmean : (((v0 % 4096 + v1 % 4096 + v2 % 4096 + v3 % 4096) %
      4294967296) >>> 2) % 65536 = (v0 + v1 + v2 + v3) / 4 := by
    rw [Nat.mod_eq_of_lt h0, Nat.mod_eq_of_lt h1, Nat.mod_eq_of_lt h2,
      Nat.mod_eq_of_lt h3, Nat.mod_eq_of_lt (by omega),
      Nat.shiftRight_eq_div_pow]
    have h4 : 2 ^ 2 = 4 := by norm_num
    rw [h4]
    have hlt : v0 + v1 + v2 + v3 < 4294967296 := by omega
    rw [Nat.mod_eq_of_lt hlt]
  rw [hmean]

theorem claim_C8_witness :
    ((500 : Nat) < 4096 ∧ (500 : Nat) < 4096 ∧ (500 : Nat) < 4096 ∧
     (500 : Nat) < 4096) ∧
    onion_touch_read 0 bootTS [500, 500, 500, 500] =
      (decide ((500 + 500 + 500 + 500) / 4 <
         (bootTS.lut.getD 0 keyD).threshold),
       { bootTS with
         last_raw_values :=
           bootTS.last_raw_values.set 0 ((500 + 500 + 500 + 500) / 4),
         classifyLog := bootTS.classifyLog ++
           [(0, decide ((500 + 500 + 500 + 500) / 4 <
               (bootTS.lut.getD 0 keyD).threshold))] },
       []) :=
  ⟨⟨by decide, by decide, by decide, by decide⟩,
   claim_C8.1 0 bootTS 500 500 500 500 []
     (by decide) (by decide) (by decide) (by decide)⟩

end Onion
